import Mathlib

set_option maxRecDepth 4000

/-!
Verification of the change-detection core of `lib_sysconfig.py`
(charm-sysconfig).

The module is shallowly embedded:

* `unitdata.kv()` is a single flat string-keyed store (`DB`); it holds both
  the per-resource change timestamps (floats in the source) and the
  per-resource sha256 hex digests (strings), so a stored value is either a
  number or a string (`KVValue`).
* `datetime` values are modelled as `Int` epoch seconds: `timestamp()` /
  `fromtimestamp` are order-preserving inverse bijections, so a datetime is
  identified with its epoch value; `datetime.min` (year 1) is the constant
  `datetimeMin`.
* the filesystem is a partial map `Files` from a resource name (a path) to
  its content; `none` means the backing file does not exist.
* `hashlib.sha256(...).hexdigest()` is an external pure function, passed in
  as a parameter `hashF`.
* Python exceptions (reading a missing file, `fromtimestamp` on a non-float)
  are modelled with `Option`: `none` is a raised exception.
-/

/-- A value stored in the charm's unit key-value store: change timestamps
(floats in the source, here `Int` epoch seconds) or sha256 hex digests. -/
inductive KVValue where
  | num (t : Int)
  | str (s : String)
deriving DecidableEq, Repr

/-- The flat unit key-value store (`unitdata.kv()`). -/
abbrev DB := String → Option KVValue

/-- The filesystem: content of each file-backed resource, `none` = missing. -/
abbrev Files := String → Option String

def dbSet (db : DB) (k : String) (v : KVValue) : DB :=
  fun q => if q = k then some v else db q

/-- Epoch seconds of `datetime.min` (0001-01-01T00:00:00), the
"dawn of time" default used for unregistered resources. -/
def datetimeMin : Int := -62135596800

/-- Python truthiness of a fetched kv value: `None`, `0.0` and `""` are
falsy, everything else truthy. -/
def pyTruthy : Option KVValue → Bool
  | none => false
  | some (KVValue.num t) => t != 0
  | some (KVValue.str s) => s != ""

/-- Python `!=` between a fetched kv value and a string: values of different
runtime types always compare unequal. -/
def pyNeStr : Option KVValue → String → Bool
  | some (KVValue.str t), s => t != s
  | _, _ => true

/-- `BootResourceState.key_for`. -/
def key_for (resource_name : String) : String :=
  "sysconfig.boot_resource." ++ resource_name

/-- The key under which `update_resource_checksums` stores a resource's
digest: `"{}.sha256sum".format(self.key_for(resource))`. -/
def shaKeyFor (resource_name : String) : String :=
  key_for resource_name ++ ".sha256sum"

/-- `BootResourceState.calculate_resource_sha256sum`: reads the backing file
and hashes it; raises (`none`) when the file is missing. -/
def calculate_resource_sha256sum (hashF : String → String) (files : Files)
    (resource_name : String) : Option String :=
  (files resource_name).map hashF

/-- `BootResourceState.update_resource_checksums`: for each resource whose
backing file exists (`os.path.exists`), store the digest of its current
content; missing files are skipped. -/
def update_resource_checksums (hashF : String → String) (files : Files) (db : DB) :
    List String → DB
  | [] => db
  | resource :: rest =>
    update_resource_checksums hashF files
      (match files resource with
       | none => db
       | some content => dbSet db (shaKeyFor resource) (KVValue.str (hashF content)))
      rest

/-- `BootResourceState.set_resource`: record `changed_at = now` for the
resource. Does not touch the checksum. -/
def set_resource (db : DB) (resource_name : String) (now : Int) : DB :=
  dbSet db (key_for resource_name) (KVValue.num now)

/-- `BootResourceState.get_resource_sha256sum`: raw kv fetch of the
recorded digest. -/
def get_resource_sha256sum (db : DB) (resource_name : String) : Option KVValue :=
  db (shaKeyFor resource_name)

/-- `BootResourceState.get_resource_changed_timestamp`: recorded timestamp,
or `datetime.min` when the resource is not registered. `fromtimestamp` on a
string raises `TypeError`, modelled as `none`. -/
def get_resource_changed_timestamp (db : DB) (resource_name : String) : Option Int :=
  match db (key_for resource_name) with
  | none => some datetimeMin
  | some (KVValue.num t) => some t
  | some (KVValue.str _) => none

/-- `BootResourceState.checksum_changed`: `True` when no digest is on
record (falsy fetch), otherwise compare the recorded digest with a fresh
one; recomputing raises when the backing file is missing. -/
def checksum_changed (hashF : String → String) (db : DB) (files : Files)
    (resource_name : String) : Option Bool :=
  if !pyTruthy (get_resource_sha256sum db resource_name) then some true
  else
    match calculate_resource_sha256sum hashF files resource_name with
    | none => none
    | some new_sum =>
      if pyNeStr (get_resource_sha256sum db resource_name) new_sum then some true
      else some false

/-- `clear_notification_time`: fetch of `"clear-notification-timestamp"`;
a falsy stored value (absent, `0.0`, `""`) yields `None`; `fromtimestamp`
of a non-empty string raises. The outer `none` is a raised exception, the
inner `none` is Python `None`. -/
def clear_notification_time (db : DB) : Option (Option Int) :=
  match db "clear-notification-timestamp" with
  | none => some none
  | some (KVValue.num t) => if t = 0 then some none else some (some t)
  | some (KVValue.str s) => if s = "" then some none else none

/-- `clear_notification`: stamp the acknowledgment time into the kv store. -/
def clear_notification (db : DB) (now : Int) : DB :=
  dbSet db "clear-notification-timestamp" (KVValue.num now)

/-- Per-resource changed-since-boot test: the membership condition of the
`time_changed` filter inside `resources_changed_since_boot` (the spec's
`resource_changed_since_boot(name)`): recorded `changed_at` (dawn-of-time
default) strictly after the effective cutoff. -/
def resource_changed_since_boot (db : DB) (bootTs : Int) (resource_name : String) :
    Option Bool :=
  match clear_notification_time db with
  | none => none
  | some cnt =>
    let acknowledged_ts := match cnt with
      | some t => max bootTs t
      | none => bootTs
    (get_resource_changed_timestamp db resource_name).map
      (fun t => decide (acknowledged_ts < t))

/-- Left-to-right effectful filter: the Python list comprehensions evaluate
their condition on every element in order, aborting on the first raised
exception. -/
def optFilter (p : String → Option Bool) : List String → Option (List String)
  | [] => some []
  | n :: rest =>
    match p n with
    | none => none
    | some b =>
      match optFilter p rest with
      | none => none
      | some r => some (if b then n :: r else r)

/-- `BootResourceState.resources_changed_since_boot`. The source returns
`list(changed)` for a Python `set` whose iteration order is arbitrary, so
the return value is modelled as the `Finset` itself; the checksum catch-up
(`update_resource_checksums(c)`) iterates the set `c`, modelled by the
equivalent filtered list (all its writes go to distinct keys with
order-independent values). `bootTs` is the value of `boot_time()`. -/
def resources_changed_since_boot (hashF : String → String) (files : Files) (db : DB)
    (bootTs : Int) (resource_names : List String) : Option (Finset String × DB) :=
  match clear_notification_time db with
  | none => none
  | some cnt =>
    let acknowledged_ts := match cnt with
      | some t => max bootTs t
      | none => bootTs
    match optFilter (fun name =>
        (get_resource_changed_timestamp db name).map
          (fun t => decide (acknowledged_ts < t))) resource_names with
    | none => none
    | some time_changed =>
      match optFilter (checksum_changed hashF db files) resource_names with
      | none => none
      | some csum_changed =>
        let a := time_changed.toFinset
        let b := csum_changed.toFinset
        let c := b \ a
        let d := b \ c
        let db' := update_resource_checksums hashF files db
          (csum_changed.filter (fun name => decide (name ∉ time_changed)))
        some (a ∩ d, db')

/-! ### Key-structure lemmas for the flat kv store -/

theorem firstChar_key_for (n : String) : (key_for n).data.head? = some 's' := by
  show (("sysconfig.boot_resource." ++ n).data).head? = some 's'
  rw [String.data_append]
  rfl

theorem key_for_ne_clear (n : String) :
    key_for n ≠ "clear-notification-timestamp" := by
  intro h
  have h1 : (key_for n).data.head? =
      ("clear-notification-timestamp" : String).data.head? := by rw [h]
  rw [firstChar_key_for] at h1
  exact absurd h1 (by decide)

theorem key_for_inj {n m : String} (h : key_for n = key_for m) : n = m := by
  have h1 := congrArg String.data h
  simp only [key_for, String.data_append] at h1
  exact String.ext (List.append_cancel_left h1)

theorem shaKeyFor_eq_key_for (n : String) :
    shaKeyFor n = key_for (n ++ ".sha256sum") := by
  apply String.ext
  simp only [shaKeyFor, key_for, String.data_append, List.append_assoc]

theorem shaKeyFor_inj {n m : String} (h : shaKeyFor n = shaKeyFor m) : n = m := by
  rw [shaKeyFor_eq_key_for, shaKeyFor_eq_key_for] at h
  have h1 := congrArg String.data (key_for_inj h)
  simp only [String.data_append] at h1
  exact String.ext (List.append_cancel_right h1)

theorem key_for_eq_shaKeyFor_iff {x q : String} :
    key_for x = shaKeyFor q ↔ x = q ++ ".sha256sum" := by
  rw [shaKeyFor_eq_key_for]
  exact ⟨fun h => key_for_inj h, fun h => by rw [h]⟩

theorem shaKeyFor_ne_clear (n : String) :
    shaKeyFor n ≠ "clear-notification-timestamp" := by
  rw [shaKeyFor_eq_key_for]
  exact key_for_ne_clear _

/-! ### Behaviour of `update_resource_checksums` -/

theorem upd_skip (hashF : String → String) (files : Files) (db : DB)
    (resources : List String) (k : String)
    (h : ∀ q ∈ resources, files q ≠ none → shaKeyFor q ≠ k) :
    update_resource_checksums hashF files db resources k = db k := by
  induction resources generalizing db with
  | nil => rfl
  | cons r rest ih =>
    simp only [update_resource_checksums]
    cases hr : files r with
    | none => exact ih db (fun q hq => h q (List.mem_cons_of_mem r hq))
    | some content =>
      rw [ih _ (fun q hq => h q (List.mem_cons_of_mem r hq))]
      have hne : shaKeyFor r ≠ k :=
        h r (List.mem_cons_self r rest) (by simp [hr])
      simp only [dbSet]
      exact if_neg (fun hkk => hne hkk.symm)

theorem upd_get (hashF : String → String) (files : Files) (db : DB)
    (resources : List String) (r : String) (content : String)
    (hf : files r = some content) (hm : r ∈ resources) :
    update_resource_checksums hashF files db resources (shaKeyFor r) =
      some (KVValue.str (hashF content)) := by
  induction resources generalizing db with
  | nil => cases hm
  | cons r' rest ih =>
    by_cases hmem : r ∈ rest
    · simp only [update_resource_checksums]
      cases hr' : files r' with
      | none => exact ih _ hmem
      | some c' => exact ih _ hmem
    · have hrr : r = r' := by
        rcases List.mem_cons.mp hm with h | h
        · exact h
        · exact absurd h hmem
      subst hrr
      simp only [update_resource_checksums, hf]
      rw [upd_skip]
      · simp [dbSet]
      · intro q hq _
        intro hk
        exact hmem (shaKeyFor_inj hk ▸ hq)

/-! ### Behaviour of `optFilter` -/

theorem optFilter_eq_filter (p : String → Option Bool) (q : String → Bool)
    (l : List String) (h : ∀ n ∈ l, p n = some (q n)) :
    optFilter p l = some (l.filter q) := by
  induction l with
  | nil => rfl
  | cons n rest ih =>
    simp only [optFilter, h n (List.mem_cons_self n rest),
      ih (fun m hm => h m (List.mem_cons_of_mem n hm)), List.filter_cons]

theorem optFilter_none (p : String → Option Bool) (l : List String) (n : String)
    (hn : n ∈ l) (h : p n = none) : optFilter p l = none := by
  induction l with
  | nil => cases hn
  | cons m rest ih =>
    by_cases hnm : n = m
    · subst hnm
      simp only [optFilter, h]
    · have hmem : n ∈ rest := by
        rcases List.mem_cons.mp hn with h' | h'
        · exact absurd h' hnm
        · exact h'
      simp only [optFilter, ih hmem]
      cases p m <;> rfl

theorem optFilter_isSome (p : String → Option Bool) (l : List String)
    (h : ∀ n ∈ l, p n ≠ none) : ∃ r, optFilter p l = some r := by
  induction l with
  | nil => exact ⟨[], rfl⟩
  | cons n rest ih =>
    obtain ⟨b, hb⟩ := Option.ne_none_iff_exists'.mp (h n (List.mem_cons_self n rest))
    obtain ⟨r, hr⟩ := ih (fun m hm => h m (List.mem_cons_of_mem n hm))
    exact ⟨if b then n :: r else r, by simp [optFilter, hb, hr]⟩

theorem checksum_changed_raises (hashF : String → String) (db : DB) (files : Files)
    (name s : String) (hrec : db (shaKeyFor name) = some (KVValue.str s))
    (hs : s ≠ "") (hmiss : files name = none) :
    checksum_changed hashF db files name = none := by
  simp [checksum_changed, get_resource_sha256sum, hrec, pyTruthy,
    calculate_resource_sha256sum, hmiss, bne_iff_ne, hs]

/-- C5: `checksum_changed(name)` is true iff no checksum is on record for
`name` or the freshly computed digest of the resource's content differs
from the recorded one; in particular with no recorded checksum it is
true. Stated for a well-formed record (absent, or a non-empty digest
string) and an existing backing file, which is what the source's own
writes produce. -/
theorem C5_checksum_changed_iff (hashF : String → String) (db : DB) (files : Files)
    (name content : String)
    (hfile : files name = some content)
    (hwf : db (shaKeyFor name) = none ∨
           ∃ s, db (shaKeyFor name) = some (KVValue.str s) ∧ s ≠ "") :
    (checksum_changed hashF db files name = some true ↔
      (db (shaKeyFor name) = none ∨
       db (shaKeyFor name) ≠ some (KVValue.str (hashF content)))) ∧
    (db (shaKeyFor name) = none → checksum_changed hashF db files name = some true) := by
  constructor
  · rcases hwf with hnone | ⟨s, hs, hsne⟩
    · simp [checksum_changed, get_resource_sha256sum, pyTruthy, hnone]
    · by_cases heq : s = hashF content
      · subst heq
        simp [checksum_changed, get_resource_sha256sum, hs, pyTruthy, bne_iff_ne,
          hsne, calculate_resource_sha256sum, hfile, pyNeStr]
      · simp [checksum_changed, get_resource_sha256sum, hs, pyTruthy, bne_iff_ne,
          hsne, calculate_resource_sha256sum, hfile, pyNeStr, heq]
  · intro hnone
    simp [checksum_changed, get_resource_sha256sum, pyTruthy, hnone]

theorem C5_witness :
    (checksum_changed (fun s => "h" ++ s) (fun _ => none) (fun _ => some "c") "n" =
        some true ↔
      ((fun _ => none : DB) (shaKeyFor "n") = none ∨
       (fun _ => none : DB) (shaKeyFor "n") ≠
         some (KVValue.str ((fun s => "h" ++ s) "c")))) ∧
    ((fun _ => none : DB) (shaKeyFor "n") = none →
      checksum_changed (fun s => "h" ++ s) (fun _ => none) (fun _ => some "c") "n" =
        some true) :=
  C5_checksum_changed_iff (fun s => "h" ++ s) (fun _ => none) (fun _ => some "c")
    "n" "c" rfl (Or.inl rfl)

/-- C7 counterexample: in the flat kv store, the digest key of resource
`"a"` is literally the `changed_at` key of a resource named
`"a.sha256sum"`; refreshing the checksum of `"a"` therefore destroys the
recorded change timestamp of `"a.sha256sum"` (its read now raises instead
of returning the recorded time), contradicting "never modifies any
resource's changed_at timestamp". -/
theorem C7_counterexample :
    get_resource_changed_timestamp
        (set_resource (fun _ => none) "a.sha256sum" 5) "a.sha256sum" = some 5 ∧
    get_resource_changed_timestamp
        (update_resource_checksums (fun s => s)
          (fun p => if p = "a" then some "x" else none)
          (set_resource (fun _ => none) "a.sha256sum" 5) ["a"]) "a.sha256sum" = none := by
  constructor <;> decide

/-- C7 (amended): a resource whose backing file is missing is skipped —
its recorded checksum is left unchanged; and `update_resource_checksums`
leaves the recorded `changed_at` of every resource unchanged, except that
the digest key of a queried name `q` aliases the `changed_at` key of a
resource literally named `q ++ ".sha256sum"` in the flat store. -/
theorem C7_amended (hashF : String → String) (files : Files) (db : DB)
    (resources : List String) :
    (∀ n ∈ resources, files n = none →
      update_resource_checksums hashF files db resources (shaKeyFor n) =
        db (shaKeyFor n)) ∧
    (∀ x, (∀ q ∈ resources, x ≠ q ++ ".sha256sum") →
      update_resource_checksums hashF files db resources (key_for x) =
        db (key_for x)) := by
  constructor
  · intro n _ hmiss
    apply upd_skip
    intro q hq hqf hk
    rw [shaKeyFor_inj hk] at hqf
    exact hqf hmiss
  · intro x hx
    apply upd_skip
    intro q hq _ hk
    exact hx q hq (key_for_eq_shaKeyFor_iff.mp hk.symm)

theorem C7_amended_witness :
    update_resource_checksums (fun s => s) (fun _ => none)
        (fun _ => some (KVValue.num 3)) ["r1"] (shaKeyFor "r1") =
      some (KVValue.num 3) ∧
    update_resource_checksums (fun s => s) (fun _ => none)
        (fun _ => some (KVValue.num 3)) ["r1"] (key_for "other") =
      some (KVValue.num 3) :=
  ⟨((C7_amended (fun s => s) (fun _ => none) (fun _ => some (KVValue.num 3))
      ["r1"]).1 "r1" (by simp) rfl).trans rfl,
   ((C7_amended (fun s => s) (fun _ => none) (fun _ => some (KVValue.num 3))
      ["r1"]).2 "other" (by decide)).trans rfl⟩

/-- C10: `checksum_changed` is asymmetric on missing backing files: with no
recorded checksum it returns true without reading the file; with a
(non-empty) recorded checksum and a missing file it raises; and
`resources_changed_since_boot` on a list containing such a resource raises
as well (in a state where the timestamp reads themselves succeed). -/
theorem C10_missing_file_asymmetry (hashF : String → String) :
    (∀ (db : DB) (files : Files) (name : String),
      db (shaKeyFor name) = none → checksum_changed hashF db files name = some true) ∧
    (∀ (db : DB) (files : Files) (name s : String),
      db (shaKeyFor name) = some (KVValue.str s) → s ≠ "" → files name = none →
      checksum_changed hashF db files name = none) ∧
    (∀ (db : DB) (files : Files) (bootTs : Int) (names : List String) (name s : String),
      db (shaKeyFor name) = some (KVValue.str s) → s ≠ "" → files name = none →
      name ∈ names →
      clear_notification_time db ≠ none →
      (∀ n ∈ names, get_resource_changed_timestamp db n ≠ none) →
      resources_changed_since_boot hashF files db bootTs names = none) := by
  refine ⟨?_, ?_, ?_⟩
  · intro db files name hnone
    simp [checksum_changed, get_resource_sha256sum, pyTruthy, hnone]
  · intro db files name s hrec hs hmiss
    exact checksum_changed_raises hashF db files name s hrec hs hmiss
  · intro db files bootTs names name s hrec hs hmiss hmem hclear htimes
    obtain ⟨cnt, hcnt⟩ := Option.ne_none_iff_exists'.mp hclear
    have hcsum := optFilter_none (checksum_changed hashF db files) names name hmem
      (checksum_changed_raises hashF db files name s hrec hs hmiss)
    rcases cnt with _ | t
    · obtain ⟨tc, htc⟩ := optFilter_isSome
        (fun n => (get_resource_changed_timestamp db n).map
          (fun t => decide (bootTs < t))) names
        (fun n hn => by
          obtain ⟨tt, ht⟩ := Option.ne_none_iff_exists'.mp (htimes n hn)
          simp [ht])
      simp only [resources_changed_since_boot, hcnt, htc, hcsum]
    · obtain ⟨tc, htc⟩ := optFilter_isSome
        (fun n => (get_resource_changed_timestamp db n).map
          (fun t' => decide (max bootTs t < t'))) names
        (fun n hn => by
          obtain ⟨tt, ht⟩ := Option.ne_none_iff_exists'.mp (htimes n hn)
          simp [ht])
      simp only [resources_changed_since_boot, hcnt, htc, hcsum]

theorem C10_witness :
    checksum_changed (fun s => s) (fun _ => none) (fun _ => none) "m" = some true ∧
    checksum_changed (fun s => s)
      (fun k => if k = shaKeyFor "n" then some (KVValue.str "z") else none)
      (fun _ => none) "n" = none ∧
    resources_changed_since_boot (fun s => s) (fun _ => none)
      (fun k => if k = shaKeyFor "n" then some (KVValue.str "z") else none)
      7 ["n"] = none :=
  ⟨(C10_missing_file_asymmetry (fun s => s)).1 (fun _ => none) (fun _ => none) "m" rfl,
   (C10_missing_file_asymmetry (fun s => s)).2.1
     (fun k => if k = shaKeyFor "n" then some (KVValue.str "z") else none)
     (fun _ => none) "n" "z" (by decide) (by decide) rfl,
   (C10_missing_file_asymmetry (fun s => s)).2.2
     (fun k => if k = shaKeyFor "n" then some (KVValue.str "z") else none)
     (fun _ => none) 7 ["n"] "n" "z" (by decide) (by decide) rfl (by decide)
     (by decide) (by decide)⟩

/-- C3 counterexample: with no recorded change timestamp the determination
is `false` at boot, not `true` as claimed: the dawn-of-time default
(`datetime.min`) is strictly before any real boot time, so the test
`EffectiveCutoff < changed_at` fails. -/
theorem C3_counterexample :
    resource_changed_since_boot (fun _ => none) 1 "R" = some false ∧
    resource_changed_since_boot (fun _ => none) 1 "R" ≠ some true := by
  constructor <;> decide

/-- C3 (amended): with no record the changed-since-boot determination is
false at boot time T0 (dawn-of-time default is before the cutoff); after
`set_resource` at T1 > T0 it becomes true; after an acknowledgment at
T2 > T1 it becomes false again. -/
theorem C3_amended (T0 T1 T2 : Int) (R : String)
    (h0 : datetimeMin < T0) (h01 : T0 < T1) (h12 : T1 < T2) (hT2 : T2 ≠ 0) :
    resource_changed_since_boot (fun _ => none) T0 R = some false ∧
    resource_changed_since_boot (set_resource (fun _ => none) R T1) T0 R = some true ∧
    resource_changed_since_boot
        (clear_notification (set_resource (fun _ => none) R T1) T2) T0 R = some false := by
  have hcl := key_for_ne_clear R
  have hcl' : "clear-notification-timestamp" ≠ key_for R := Ne.symm hcl
  refine ⟨?_, ?_, ?_⟩
  · have hnlt : ¬ (T0 < datetimeMin) := by omega
    simp [resource_changed_since_boot, clear_notification_time,
      get_resource_changed_timestamp, hnlt]
  · simp [resource_changed_since_boot, clear_notification_time, set_resource, dbSet,
      get_resource_changed_timestamp, hcl', h01]
  · have hmax : max T0 T2 = T2 := max_eq_right (by omega)
    have hnlt : ¬ (T2 < T1) := by omega
    have e1 : (clear_notification (set_resource (fun _ => none) R T1) T2)
        "clear-notification-timestamp" = some (KVValue.num T2) := by
      simp [clear_notification, set_resource, dbSet]
    have e2 : (clear_notification (set_resource (fun _ => none) R T1) T2)
        (key_for R) = some (KVValue.num T1) := by
      simp [clear_notification, set_resource, dbSet, hcl]
    simp [resource_changed_since_boot, clear_notification_time,
      get_resource_changed_timestamp, e1, e2, hT2, hmax, hnlt]

theorem C3_amended_witness :
    resource_changed_since_boot (fun _ => none) 10 "R" = some false ∧
    resource_changed_since_boot (set_resource (fun _ => none) "R" 20) 10 "R" =
      some true ∧
    resource_changed_since_boot
        (clear_notification (set_resource (fun _ => none) "R" 20) 30) 10 "R" =
      some false :=
  C3_amended 10 20 30 "R" (by decide) (by decide) (by decide) (by decide)

/-! ### Spec-side sets for the `resources_changed_since_boot` algorithm -/

/-- Recorded `changed_at` of a resource, with the dawn-of-time default
("absent ⇒ changed at the beginning of time"). -/
def recorded_changed_at (db : DB) (name : String) : Int :=
  match db (key_for name) with
  | some (KVValue.num t) => t
  | _ => datetimeMin

/-- EffectiveCutoff: `max(BootTime, AcknowledgmentTime)` when an
acknowledgment timestamp exists, else `BootTime`. -/
def specEffectiveCutoff (db : DB) (bootTs : Int) : Int :=
  match clear_notification_time db with
  | some (some t) => max bootTs t
  | _ => bootTs

/-- TimeChanged membership: recorded `changed_at` strictly after
EffectiveCutoff. -/
def specTimeChangedPred (db : DB) (bootTs : Int) (name : String) : Bool :=
  decide (specEffectiveCutoff db bootTs < recorded_changed_at db name)

/-- TimeChanged: the set of queried names whose recorded `changed_at` is
strictly after EffectiveCutoff. -/
def specTimeChanged (db : DB) (bootTs : Int) (names : List String) : Finset String :=
  (names.filter (specTimeChangedPred db bootTs)).toFinset

/-- CsumChanged membership: no recorded checksum, or the live content
digest differs from the recorded value. (With a record present but the
backing file missing no live digest exists; that case is excluded by the
well-formedness hypotheses of the theorems below.) -/
def specCsumChangedPred (hashF : String → String) (db : DB) (files : Files)
    (name : String) : Bool :=
  match db (shaKeyFor name), files name with
  | none, _ => true
  | some v, some content => decide (v ≠ KVValue.str (hashF content))
  | some _, none => true

/-- CsumChanged: queried names whose live content checksum differs from
the recorded one or that have no recorded checksum. -/
def specCsumChanged (hashF : String → String) (db : DB) (files : Files)
    (names : List String) : Finset String :=
  (names.filter (specCsumChangedPred hashF db files)).toFinset

/-- CsumOnlyChanged = CsumChanged − TimeChanged. -/
def specCsumOnlyChanged (hashF : String → String) (db : DB) (files : Files)
    (bootTs : Int) (names : List String) : Finset String :=
  specCsumChanged hashF db files names \ specTimeChanged db bootTs names

/-- Well-formedness of a resource's timestamp slot: absent or a number
(a string there would make `fromtimestamp` raise). -/
def changedAtWF (db : DB) (name : String) : Bool :=
  match db (key_for name) with
  | some (KVValue.str _) => false
  | _ => true

/-- Well-formedness of a resource's digest slot: absent, or a non-empty
digest string with the backing file present (so that recomputing the
digest cannot raise). -/
def shaRecordWF (db : DB) (files : Files) (name : String) : Bool :=
  match db (shaKeyFor name), files name with
  | none, _ => true
  | some (KVValue.str s), some _ => s != ""
  | _, _ => false

theorem time_pred_pointwise (db : DB) (bootTs cut : Int) (n : String)
    (hcut : cut = specEffectiveCutoff db bootTs)
    (h : changedAtWF db n = true) :
    (get_resource_changed_timestamp db n).map (fun t => decide (cut < t)) =
      some (specTimeChangedPred db bootTs n) := by
  subst hcut
  unfold changedAtWF at h
  unfold get_resource_changed_timestamp specTimeChangedPred recorded_changed_at
  cases hdb : db (key_for n) with
  | none => rfl
  | some v =>
    cases v with
    | num t => rfl
    | str s => rw [hdb] at h; cases h

theorem csum_pred_pointwise (hashF : String → String) (db : DB) (files : Files)
    (n : String) (h : shaRecordWF db files n = true) :
    checksum_changed hashF db files n = some (specCsumChangedPred hashF db files n) := by
  unfold shaRecordWF at h
  unfold checksum_changed specCsumChangedPred get_resource_sha256sum
    calculate_resource_sha256sum
  cases hdb : db (shaKeyFor n) with
  | none => simp [pyTruthy]
  | some v =>
    rw [hdb] at h
    cases v with
    | num t => cases hf : files n <;> rw [hf] at h <;> cases h
    | str s =>
      cases hf : files n with
      | none => rw [hf] at h; cases h
      | some content =>
        rw [hf] at h
        have hs : s ≠ "" := by simpa [bne_iff_ne] using h
        by_cases hsc : s = hashF content
        · subst hsc
          simp [pyTruthy, pyNeStr, bne_iff_ne, hs, hf]
        · simp [pyTruthy, pyNeStr, bne_iff_ne, hs, hf, hsc]

/-- The full behaviour of `resources_changed_since_boot` on a well-formed
state: it returns the claimed set and performs the checksum catch-up. -/
theorem rcsb_spec (hashF : String → String) (files : Files) (db : DB) (bootTs : Int)
    (names : List String)
    (hc : clear_notification_time db ≠ none)
    (h2 : ∀ n ∈ names, changedAtWF db n = true)
    (h3 : ∀ n ∈ names, shaRecordWF db files n = true) :
    resources_changed_since_boot hashF files db bootTs names =
      some (specTimeChanged db bootTs names ∩
              (specCsumChanged hashF db files names \
                specCsumOnlyChanged hashF db files bootTs names),
            update_resource_checksums hashF files db
              ((names.filter (specCsumChangedPred hashF db files)).filter
                (fun name =>
                  decide (name ∉ names.filter (specTimeChangedPred db bootTs))))) := by
  obtain ⟨cnt, hcnt⟩ := Option.ne_none_iff_exists'.mp hc
  have hcsum := optFilter_eq_filter
    (checksum_changed hashF db files)
    (specCsumChangedPred hashF db files) names
    (fun n hn => csum_pred_pointwise hashF db files n (h3 n hn))
  rcases cnt with _ | t
  · have hack : bootTs = specEffectiveCutoff db bootTs := by
      simp [specEffectiveCutoff, hcnt]
    have htime := optFilter_eq_filter
      (fun name => (get_resource_changed_timestamp db name).map
        (fun t => decide (bootTs < t)))
      (specTimeChangedPred db bootTs) names
      (fun n hn => time_pred_pointwise db bootTs bootTs n hack (h2 n hn))
    simp only [resources_changed_since_boot, hcnt, htime, hcsum,
      specTimeChanged, specCsumChanged, specCsumOnlyChanged]
  · have hack : max bootTs t = specEffectiveCutoff db bootTs := by
      simp [specEffectiveCutoff, hcnt]
    have htime := optFilter_eq_filter
      (fun name => (get_resource_changed_timestamp db name).map
        (fun t' => decide (max bootTs t < t')))
      (specTimeChangedPred db bootTs) names
      (fun n hn => time_pred_pointwise db bootTs (max bootTs t) n hack (h2 n hn))
    simp only [resources_changed_since_boot, hcnt, htime, hcsum,
      specTimeChanged, specCsumChanged, specCsumOnlyChanged]

/-- C1: for every queried list of resource names (on a well-formed state:
readable timestamps, and a digest record only with its backing file
present), `resources_changed_since_boot` returns exactly the set
TimeChanged ∩ (CsumChanged − CsumOnlyChanged), with EffectiveCutoff =
max(boot, acknowledgment) when an acknowledgment exists and boot time
otherwise, TimeChanged the names whose recorded `changed_at` is strictly
after EffectiveCutoff, CsumChanged the names whose live checksum differs
from the recorded one or that have no recorded checksum, and
CsumOnlyChanged = CsumChanged − TimeChanged. -/
theorem C1_resources_changed_formula (hashF : String → String) (files : Files)
    (db : DB) (bootTs : Int) (names : List String)
    (hc : clear_notification_time db ≠ none)
    (h2 : ∀ n ∈ names, changedAtWF db n = true)
    (h3 : ∀ n ∈ names, shaRecordWF db files n = true) :
    ∃ db', resources_changed_since_boot hashF files db bootTs names =
      some (specTimeChanged db bootTs names ∩
              (specCsumChanged hashF db files names \
                specCsumOnlyChanged hashF db files bootTs names), db') :=
  ⟨_, rcsb_spec hashF files db bootTs names hc h2 h3⟩

/-- Concrete example state for the witnesses: resource "a" was written
after the cutoff and its content drifted, "b" has checksum drift only,
"c" is fully clean. -/
def egDb : DB := fun k =>
  if k = key_for "a" then some (KVValue.num 100)
  else if k = shaKeyFor "a" then some (KVValue.str "old")
  else if k = key_for "b" then some (KVValue.num 10)
  else if k = shaKeyFor "c" then some (KVValue.str "cc")
  else none

def egFiles : Files := fun p =>
  if p = "a" then some "new"
  else if p = "b" then some "bb"
  else if p = "c" then some "cc"
  else none

theorem C1_witness :
    ∃ db', resources_changed_since_boot (fun s => s) egFiles egDb 50 ["a", "b", "c"] =
      some (specTimeChanged egDb 50 ["a", "b", "c"] ∩
              (specCsumChanged (fun s => s) egDb egFiles ["a", "b", "c"] \
                specCsumOnlyChanged (fun s => s) egDb egFiles 50 ["a", "b", "c"]),
            db') :=
  C1_resources_changed_formula (fun s => s) egFiles egDb 50 ["a", "b", "c"]
    (by decide) (by decide) (by decide)

/-- C4: a queried resource whose checksum differs (or has no record) but
whose `changed_at` is not strictly after EffectiveCutoff is not in the
returned set, and the call stores its current live checksum as the new
recorded checksum whenever its backing file exists. -/
theorem C4_checksum_catch_up (hashF : String → String) (files : Files) (db : DB)
    (bootTs : Int) (names : List String) (n0 : String)
    (hc : clear_notification_time db ≠ none)
    (h2 : ∀ n ∈ names, changedAtWF db n = true)
    (h3 : ∀ n ∈ names, shaRecordWF db files n = true)
    (hmem : n0 ∈ names)
    (hcs : specCsumChangedPred hashF db files n0 = true)
    (hnt : specTimeChangedPred db bootTs n0 = false) :
    ∃ S db', resources_changed_since_boot hashF files db bootTs names = some (S, db') ∧
      n0 ∉ S ∧
      ∀ content, files n0 = some content →
        db' (shaKeyFor n0) = some (KVValue.str (hashF content)) := by
  refine ⟨_, _, rcsb_spec hashF files db bootTs names hc h2 h3, ?_, ?_⟩
  · intro hin
    have hT : n0 ∈ specTimeChanged db bootTs names := (Finset.mem_inter.mp hin).1
    have hTT : specTimeChangedPred db bootTs n0 = true :=
      (List.mem_filter.mp (List.mem_toFinset.mp hT)).2
    rw [hnt] at hTT
    cases hTT
  · intro content hcont
    apply upd_get hashF files db _ n0 content hcont
    apply List.mem_filter.mpr
    refine ⟨List.mem_filter.mpr ⟨hmem, hcs⟩, ?_⟩
    simp only [decide_eq_true_eq]
    intro hmemT
    have hTT := (List.mem_filter.mp hmemT).2
    rw [hnt] at hTT
    cases hTT

theorem C4_witness :
    ∃ S db', resources_changed_since_boot (fun s => s) egFiles egDb 50 ["a", "b", "c"] =
      some (S, db') ∧
      "b" ∉ S ∧
      ∀ content, egFiles "b" = some content →
        db' (shaKeyFor "b") = some (KVValue.str ((fun s : String => s) content)) :=
  C4_checksum_catch_up (fun s => s) egFiles egDb 50 ["a", "b", "c"] "b"
    (by decide) (by decide) (by decide) (by decide) (by decide) (by decide)

/-! ### `parse_config_flags` -/

/-- The split performed by `re.split(r',(?=(?:[^"]*"[^"]*")*[^"]*$)', s)`:
split at every comma whose suffix contains an even number of double quotes
(i.e. at commas not inside a double-quoted section), scanning left to
right; `acc` holds the current token reversed. -/
def splitQuotedAux : List Char → List Char → List (List Char)
  | [], acc => [acc.reverse]
  | c :: rest, acc =>
    if c = ',' ∧ rest.count '"' % 2 = 0 then acc.reverse :: splitQuotedAux rest []
    else splitQuotedAux rest (c :: acc)

/-- Python `str.strip()` (whitespace at both ends). -/
def pyStrip (l : List Char) : List Char :=
  ((l.dropWhile Char.isWhitespace).reverse.dropWhile Char.isWhitespace).reverse

/-- `pair.split("=", 1)`: split at the first `=`; `none` exactly when the
pair contains no `=` (the `"=" in pair` test). -/
def splitOnceEq : List Char → Option (List Char × List Char)
  | [] => none
  | c :: rest =>
    if c = '=' then some ([], rest)
    else (splitOnceEq rest).map (fun p => (c :: p.1, p.2))

/-- Python dict assignment `d[k] = v`: overwrite keeps the key's original
insertion position, a new key is appended. -/
def dictInsert (d : List (String × String)) (k v : String) : List (String × String) :=
  if d.any (fun p => p.1 == k) then d.map (fun p => if p.1 == k then (k, v) else p)
  else d ++ [(k, v)]

/-- The value-reconstruction `while` loop: the immediately following
comma-delimited tokens that contain no `=` are appended to the value,
rejoined with commas (unstripped, as in the source). -/
def joinExtras (v : List Char) (toks : List (List Char)) : List Char :=
  (toks.takeWhile (fun t => (splitOnceEq t).isNone)).foldl
    (fun acc t => acc ++ ',' :: t) v

/-- The `for index, pair in enumerate(key_value_pairs)` loop of
`parse_config_flags`: tokens without `=` are skipped (they were already
consumed as extra value parts by an earlier iteration's lookahead). -/
def parseLoop : List (List Char) → List (String × String) → List (String × String)
  | [], acc => acc
  | pair :: rest, acc =>
    match splitOnceEq pair with
    | none => parseLoop rest acc
    | some (k, v) =>
      parseLoop rest
        (dictInsert acc (String.mk (pyStrip k))
          (String.mk (joinExtras (pyStrip v) rest)))

/-- `parse_config_flags`, returning the dict as an insertion-ordered
association list. -/
def parse_config_flags (config_flags : String) : List (String × String) :=
  parseLoop (splitQuotedAux config_flags.data []) []

/-- C8: `parse_config_flags` maps `"key1=val1, key2=val2,val3,val4"` to
`{"key1": "val1", "key2": "val2,val3,val4"}` (keyless comma tokens are
rejoined onto the previous value) and maps
`'key1="subkey1=val1,val2 subkey2=val3"'` to
`{"key1": "\"subkey1=val1,val2 subkey2=val3\""}` (commas inside double
quotes are preserved and the quotes kept). -/
theorem C8_parse_config_flags_examples :
    parse_config_flags "key1=val1, key2=val2,val3,val4" =
      [("key1", "val1"), ("key2", "val2,val3,val4")] ∧
    parse_config_flags "key1=\"subkey1=val1,val2 subkey2=val3\"" =
      [("key1", "\"subkey1=val1,val2 subkey2=val3\"")] := by
  constructor <;> rfl

/-! ### Grub UUID→LABEL rewriting (`_replace_uuids_with_labels`) -/

/-- Python `str.replace` scanning for a pattern `p0 :: ps`: at each
position, on a match emit `new` and continue after the matched text,
otherwise keep the character. `fuel` is always `s.length` at the top call;
it only makes the recursion structural. -/
def pyReplaceFuel (p0 : Char) (ps new : List Char) : Nat → List Char → List Char
  | 0, s => s
  | _ + 1, [] => []
  | fuel + 1, c :: rest =>
    if (p0 :: ps).isPrefixOf (c :: rest) then
      new ++ pyReplaceFuel p0 ps new fuel (rest.drop ps.length)
    else c :: pyReplaceFuel p0 ps new fuel rest

/-- Python `content.replace(old, new)` for a non-empty `old` (every
pattern built below starts with `'r'`, so Python's empty-pattern behaviour
is never exercised). -/
def str_replace (content old new : String) : String :=
  match old.data with
  | [] => content
  | p0 :: ps =>
    String.mk (pyReplaceFuel p0 ps new.data content.data.length content.data)

/-- `_replace_uuids_with_labels`: for each `(uuid, label)` entry of the
blkid mapping replace `root=UUID={uuid}` by `root=LABEL={label}`. -/
def replace_uuids_with_labels (content : String)
    (blkid_mapping : List (String × String)) : String :=
  blkid_mapping.foldl
    (fun content ul =>
      str_replace content ("root=UUID=" ++ ul.1) ("root=LABEL=" ++ ul.2))
    content

/-- Substring test (Python `pat in s`). -/
def listContainsSub (pat : List Char) : List Char → Bool
  | [] => pat.isEmpty
  | c :: rest => pat.isPrefixOf (c :: rest) || listContainsSub pat rest

def strContains (s pat : String) : Bool := listContainsSub pat.data s.data

theorem listContainsSub_iff (pat s : List Char) :
    listContainsSub pat s = true ↔ pat <:+: s := by
  induction s with
  | nil => simp [listContainsSub, List.isEmpty_iff]
  | cons c rest ih =>
    simp [listContainsSub, ih, List.infix_cons_iff]

theorem pyReplaceFuel_contains_new (p0 : Char) (ps new : List Char) :
    ∀ (fuel : Nat) (s : List Char), s.length ≤ fuel → (p0 :: ps) <:+: s →
      new <:+: pyReplaceFuel p0 ps new fuel s := by
  intro fuel
  induction fuel with
  | zero =>
    intro s hlen hinf
    have hs : s = [] := List.length_eq_zero.mp (Nat.le_zero.mp hlen)
    subst hs
    rw [List.infix_nil] at hinf
    cases hinf
  | succ fuel ih =>
    intro s hlen hinf
    cases s with
    | nil =>
      rw [List.infix_nil] at hinf
      cases hinf
    | cons c rest =>
      cases hpre : (p0 :: ps).isPrefixOf (c :: rest) with
      | true =>
        simp only [pyReplaceFuel, hpre, if_true]
        exact ⟨[], pyReplaceFuel p0 ps new fuel (rest.drop ps.length), rfl⟩
      | false =>
        simp only [pyReplaceFuel, hpre, Bool.false_eq_true, if_false]
        have hrest : (p0 :: ps) <:+: rest := by
          rcases hinf with ⟨u, v, huv⟩
          cases u with
          | nil =>
            exfalso
            have : (p0 :: ps).isPrefixOf (c :: rest) = true :=
              List.isPrefixOf_iff_prefix.mpr ⟨v, by simpa using huv⟩
            rw [hpre] at this
            cases this
          | cons c' u' =>
            have huv' := huv
            simp only [List.cons_append] at huv'
            exact ⟨u', v, (List.cons.injEq .. ▸ huv').2⟩
        have hlen' : rest.length ≤ fuel := by
          simpa [Nat.succ_le_succ_iff] using hlen
        exact List.infix_cons (ih rest hlen' hrest)

/-- Every occurrence of the character `u` in `s` lies inside an occurrence
of the pattern `P`. -/
def UinP (u : Char) (P s : List Char) : Prop :=
  ∀ a b : List Char, s = a ++ u :: b →
    ∃ a' b' : List Char, s = a' ++ P ++ b' ∧
      a'.length ≤ a.length ∧ a.length < a'.length + P.length

theorem pyReplaceFuel_no_u (u p0 : Char) (ps new : List Char)
    (hnew : u ∉ new) (hself : p0 ∉ ps) :
    ∀ (fuel : Nat) (s : List Char), s.length ≤ fuel →
      UinP u (p0 :: ps) s → u ∉ pyReplaceFuel p0 ps new fuel s := by
  intro fuel
  induction fuel with
  | zero =>
    intro s hlen hU
    have hs : s = [] := List.length_eq_zero.mp (Nat.le_zero.mp hlen)
    subst hs
    simp [pyReplaceFuel]
  | succ fuel ih =>
    intro s hlen hU
    cases s with
    | nil => simp [pyReplaceFuel]
    | cons c rest =>
      cases hpre : (p0 :: ps).isPrefixOf (c :: rest) with
      | true =>
        simp only [pyReplaceFuel, hpre, if_true, List.mem_append]
        obtain ⟨rest2, hrest2⟩ := List.isPrefixOf_iff_prefix.mp hpre
        have hinj : p0 = c ∧ ps ++ rest2 = rest := by
          have h5 := hrest2
          simp only [List.cons_append] at h5
          exact List.cons.injEq .. ▸ h5
        have hdrop : rest.drop ps.length = rest2 := by
          rw [← hinj.2]
          exact List.drop_left ps rest2
        rw [hdrop]
        have hlenr : rest.length ≤ fuel := Nat.succ_le_succ_iff.mp (by simpa using hlen)
        have hlen2 : rest2.length ≤ fuel := by
          have h6 : rest.length = ps.length + rest2.length := by
            rw [← hinj.2, List.length_append]
          omega
        have hU2 : UinP u (p0 :: ps) rest2 := by
          intro a b hab
          have hs2 : c :: rest = ((p0 :: ps) ++ a) ++ u :: b := by
            rw [← hrest2, hab, List.append_assoc]
          obtain ⟨a', b', hdec, hle, hlt⟩ := hU ((p0 :: ps) ++ a) b hs2
          simp only [List.length_append, List.length_cons] at hle hlt
          have hfull : (p0 :: ps) ++ rest2 = a' ++ ((p0 :: ps) ++ b') := by
            rw [hrest2, hdec, List.append_assoc]
          have hPle : ps.length + 1 ≤ a'.length := by
            by_contra hlt2
            push_neg at hlt2
            rcases List.append_eq_append_iff.mp hfull with
              ⟨a2, ha2, _⟩ | ⟨c2, hc2, hd2⟩
            · have hL := congrArg List.length ha2
              simp only [List.length_append, List.length_cons] at hL
              omega
            · cases hc2eq : c2 with
              | nil =>
                rw [hc2eq] at hc2
                have hL := congrArg List.length hc2
                simp only [List.length_append, List.length_nil, List.length_cons] at hL
                omega
              | cons d c2' =>
                rw [hc2eq] at hd2 hc2
                have hdp : p0 = d := by
                  have h7 := congrArg List.head? hd2
                  simpa using h7
                cases ha'eq : a' with
                | nil =>
                  rw [ha'eq] at hlt
                  simp only [List.length_nil, Nat.zero_add] at hlt
                  omega
                | cons e a2' =>
                  rw [ha'eq] at hc2
                  have hps : ps = a2' ++ d :: c2' := by
                    have h8 := hc2
                    simp only [List.cons_append] at h8
                    exact (List.cons.injEq .. ▸ h8).2
                  apply hself
                  rw [hps, hdp]
                  simp
          rcases List.append_eq_append_iff.mp hfull with
            ⟨a2, ha2, hr2⟩ | ⟨c2, hc2, _⟩
          · have hL := congrArg List.length ha2
            simp only [List.length_append, List.length_cons] at hL
            refine ⟨a2, b', ?_, ?_, ?_⟩
            · rw [hr2, List.append_assoc]
            · omega
            · simp only [List.length_cons]
              omega
          · have hL := congrArg List.length hc2
            simp only [List.length_append, List.length_cons] at hL
            have hc2nil : c2 = [] := by
              have h9 : c2.length = 0 := by omega
              exact List.length_eq_zero.mp h9
            rw [hc2nil, List.append_nil] at hc2
            have h10 : (p0 :: ps) ++ rest2 = (p0 :: ps) ++ ((p0 :: ps) ++ b') := by
              rw [hfull, ← hc2]
            have h11 := List.append_cancel_left h10
            refine ⟨[], b', ?_, ?_, ?_⟩
            · rw [h11]
              simp
            · simp
            · simp only [List.length_nil, Nat.zero_add, List.length_cons]
              omega
        rintro (hmem | hmem)
        · exact hnew hmem
        · exact ih rest2 hlen2 hU2 hmem
      | false =>
        simp only [pyReplaceFuel, hpre, Bool.false_eq_true, if_false, List.mem_cons]
        have hcne : ¬ (u = c) := by
          intro hceq
          obtain ⟨a', b', hdec, hle, _⟩ := hU [] rest (by rw [hceq]; rfl)
          have ha' : a' = [] :=
            List.length_eq_zero.mp (Nat.le_zero.mp (by simpa using hle))
          rw [ha'] at hdec
          have h12 : (p0 :: ps).isPrefixOf (c :: rest) = true :=
            List.isPrefixOf_iff_prefix.mpr ⟨b', by simpa using hdec.symm⟩
          rw [hpre] at h12
          cases h12
        have hU2 : UinP u (p0 :: ps) rest := by
          intro a b hab
          obtain ⟨a', b', hdec, hle, hlt⟩ := hU (c :: a) b (by rw [hab]; rfl)
          cases ha'eq : a' with
          | nil =>
            rw [ha'eq] at hdec
            exfalso
            have h13 : (p0 :: ps).isPrefixOf (c :: rest) = true :=
              List.isPrefixOf_iff_prefix.mpr ⟨b', by simpa using hdec.symm⟩
            rw [hpre] at h13
            cases h13
          | cons e a2 =>
            rw [ha'eq] at hdec hle hlt
            simp only [List.length_cons] at hle hlt
            have hrest : rest = a2 ++ (p0 :: ps) ++ b' := by
              have h14 := hdec
              simp only [List.cons_append] at h14
              exact (List.cons.injEq .. ▸ h14).2
            refine ⟨a2, b', hrest, ?_, ?_⟩
            · omega
            · simp only [List.length_cons] at hlt ⊢
              omega
        rintro (hceq | hmem)
        · exact hcne hceq
        · exact ih rest (Nat.succ_le_succ_iff.mp (by simpa using hlen)) hU2 hmem

/-- Decidable form of `UinP`: every position holding the character `u` is
covered by an occurrence of `P` starting at or before it. -/
def uOccurrencesCovered (u : Char) (P s : List Char) : Bool :=
  (List.range s.length).all fun i =>
    !(decide ((s.drop i).head? = some u)) ||
      (List.range (i + 1)).any fun q =>
        P.isPrefixOf (s.drop q) && decide (i < q + P.length)

theorem UinP_of_covered (u : Char) (P s : List Char)
    (h : uOccurrencesCovered u P s = true) : UinP u P s := by
  intro a b hab
  have hi : a.length < s.length := by
    rw [hab, List.length_append, List.length_cons]
    omega
  have hdrop : s.drop a.length = u :: b := by
    rw [hab]
    exact List.drop_left a (u :: b)
  have hall := List.all_eq_true.mp h a.length (List.mem_range.mpr hi)
  rw [hdrop] at hall
  simp only [List.head?_cons, decide_eq_true_eq] at hall
  have hany : ((List.range (a.length + 1)).any fun q =>
      P.isPrefixOf (s.drop q) && decide (a.length < q + P.length)) = true := by
    rcases Bool.or_eq_true_iff.mp hall with hfalse | hok
    · simp at hfalse
    · exact hok
  obtain ⟨q, hqmem, hq⟩ := List.any_eq_true.mp hany
  have hqle : q ≤ a.length := Nat.lt_succ_iff.mp (List.mem_range.mp hqmem)
  have hq1 := Bool.and_eq_true_iff.mp hq
  obtain ⟨t, ht⟩ := List.isPrefixOf_iff_prefix.mp hq1.1
  have hqlt : a.length < q + P.length := of_decide_eq_true hq1.2
  refine ⟨s.take q, t, ?_, ?_, ?_⟩
  · conv_lhs => rw [← List.take_append_drop q s, ← ht]
    rw [List.append_assoc]
  · rw [List.length_take]
    omega
  · rw [List.length_take]
    omega

/-- C9 counterexample: `str.replace` only replaces `root=UUID=<X>`, so an
occurrence of `UUID=<X>` that is not preceded by `root=` survives the
rewrite, contradicting "no longer contains UUID=<X>". -/
theorem C9_counterexample :
    replace_uuids_with_labels "root=UUID=abc UUID=abc" [("abc", "mylabel")] =
      "root=LABEL=mylabel UUID=abc" ∧
    ¬ (strContains (replace_uuids_with_labels "root=UUID=abc UUID=abc"
          [("abc", "mylabel")]) "root=LABEL=mylabel" = true ∧
       strContains (replace_uuids_with_labels "root=UUID=abc UUID=abc"
          [("abc", "mylabel")]) ("UUID=" ++ "abc") = false) :=
  ⟨rfl, by decide⟩

/-- C9 (amended): whenever the grub text contains `root=UUID=<X>`, the
rewrite with mapping `{X ↦ "mylabel"}` yields text containing
`root=LABEL=mylabel`; and when additionally every occurrence of `'U'` in
the text lies inside an occurrence of `root=UUID=<X>` and `X` does not
contain `'r'` (both true of real grub boot lines, whose UUIDs are
lowercase hexadecimal and dashes), the result no longer contains
`UUID=<X>`. The two side conditions restrict exactly the failures the
counterexample exhibits: un-prefixed `UUID=<X>` occurrences survive. -/
theorem C9_uuid_label_rewrite (content X : String)
    (h1 : strContains content ("root=UUID=" ++ X) = true)
    (h2 : uOccurrencesCovered 'U' ("root=UUID=" ++ X).data content.data = true)
    (hr : 'r' ∉ X.data) :
    strContains (replace_uuids_with_labels content [(X, "mylabel")])
      "root=LABEL=mylabel" = true ∧
    strContains (replace_uuids_with_labels content [(X, "mylabel")])
      ("UUID=" ++ X) = false := by
  have hres : replace_uuids_with_labels content [(X, "mylabel")] =
      String.mk (pyReplaceFuel 'r' ("oot=UUID=".data ++ X.data)
        ("root=LABEL=" ++ "mylabel").data content.data.length content.data) := rfl
  constructor
  · rw [hres]
    apply (listContainsSub_iff _ _).mpr
    have hinf : ('r' :: ("oot=UUID=".data ++ X.data)) <:+: content.data :=
      (listContainsSub_iff _ _).mp h1
    exact pyReplaceFuel_contains_new 'r' ("oot=UUID=".data ++ X.data)
      ("root=LABEL=" ++ "mylabel").data content.data.length content.data
      (le_refl _) hinf
  · rw [hres]
    by_contra hcon
    rw [Bool.not_eq_false] at hcon
    have hinf := (listContainsSub_iff _ _).mp hcon
    have hUmem : 'U' ∈ pyReplaceFuel 'r' ("oot=UUID=".data ++ X.data)
        ("root=LABEL=" ++ "mylabel").data content.data.length content.data := by
      rcases hinf with ⟨uu, vv, huv⟩
      have h15 : 'U' ∈ uu ++ ("UUID=" ++ X).data ++ vv :=
        List.mem_append.mpr (Or.inl (List.mem_append.mpr (Or.inr (by
          show 'U' ∈ 'U' :: ("UID=".data ++ X.data)
          exact List.mem_cons_self _ _))))
      show 'U' ∈ (String.mk (pyReplaceFuel 'r' ("oot=UUID=".data ++ X.data)
        ("root=LABEL=" ++ "mylabel").data content.data.length content.data)).data
      exact huv ▸ h15
    exact pyReplaceFuel_no_u 'U' 'r' ("oot=UUID=".data ++ X.data)
      ("root=LABEL=" ++ "mylabel").data (by decide)
      (by
        intro hmem
        rcases List.mem_append.mp hmem with hmem' | hmem'
        · exact absurd hmem' (by decide)
        · exact hr hmem')
      content.data.length content.data (le_refl _)
      (UinP_of_covered 'U' ("root=UUID=" ++ X).data content.data h2) hUmem

theorem C9_witness :
    strContains (replace_uuids_with_labels "x root=UUID=ab-1 y" [("ab-1", "mylabel")])
      "root=LABEL=mylabel" = true ∧
    strContains (replace_uuids_with_labels "x root=UUID=ab-1 y" [("ab-1", "mylabel")])
      ("UUID=" ++ "ab-1") = false :=
  C9_uuid_label_rewrite "x root=UUID=ab-1 y" "ab-1" (by decide) (by decide) (by decide)

/-! ### SysConfigHelper: the reconciliation methods

Template rendering (`render`), `ConfigParser` (`cparse`), the legacy
`config_flags_parser` (`cfp`), YAML parsing (`yparse`) and file hashing
(`hashF`) are external collaborators, passed in as pure functions. OS side
effects (writes, restarts, mask/unmask, package installs, `update-grub`,
`sysctl.create`) are recorded as an `Action` trace; the `World` carries
the filesystem, the kv store and the reactive file-hash cache used by
`any_file_changed`. -/

def CPUFREQUTILS_TMPL : String := "cpufrequtils.j2"
def GRUB_CONF_TMPL : String := "grub.j2"
def SYSTEMD_SYSTEM_TMPL : String := "etc.systemd.system.conf.j2"
def SYSTEMD_RESOLVED_TMPL : String := "etc.systemd.resolved.conf.j2"
def IRQBALANCE_CONF_TMPL : String := "irqbalance.j2"
def CPUFREQUTILS : String := "/etc/default/cpufrequtils"
def GRUB_CONF : String := "/etc/default/grub.d/90-sysconfig.cfg"
def SYSTEMD_SYSTEM : String := "/etc/systemd/system.conf"
def SYSTEMD_RESOLVED : String := "/etc/systemd/resolved.conf"
def SYSCTL_CONF : String := "/etc/sysctl.d/90-charm-sysconfig.conf"
def KERNEL : String := "kernel"
def IRQBALANCE_CONF : String := "/etc/default/irqbalance"

/-- A value in a rendering context: string, `True`, or a parsed
config-flags dict. -/
inductive CtxVal where
  | s (v : String)
  | b (v : Bool)
  | flags (v : List (String × String))
deriving DecidableEq, Repr

abbrev Ctx := List (String × CtxVal)

/-- The charm configuration options read by the reconciliation methods. -/
structure CharmConfig where
  reservation : String
  cpu_affinity_range : String
  cpu_range : String
  hugepages : String
  hugepagesz : String
  default_hugepagesz : String
  isolcpus : String
  raid_autodetection : String
  enable_pti : String
  enable_iommu : Bool
  enable_tsx : Bool
  grub_config_flags : String
  systemd_config_flags : String
  kernel_version : String
  update_grub : Bool
  governor : String
  resolved_cache_mode : String
  sysctl : String
  config_flags : String
  irqbalance_banned_cpus : String
deriving DecidableEq, Repr

/-- An OS side effect performed by a reconciliation method. -/
inductive OsAction where
  | writeFile (path content : String)
  | setResource (name : String)
  | serviceRestart (name : String)
  | maskService (name : String)
  | unmaskService (name : String)
  | aptUpdate
  | aptInstall (pkg : String)
  | runUpdateGrub
  | sysctlCreate (conf : List (String × String)) (path : String)
deriving DecidableEq, Repr

/-- Mutable outside state: the filesystem, the unit kv store, and the
reactive layer's file-hash cache (backing `any_file_changed`). -/
structure World where
  files : Files
  db : DB
  hashCache : String → Option String

/-- `SysConfigHelper.isolcpus` with the deprecated reservation/cpu-range
fallback. -/
def isolcpusP (cfg : CharmConfig) : String :=
  if cfg.isolcpus = "" ∧ cfg.reservation = "isolcpus" ∧ cfg.cpu_range ≠ "" then
    cfg.cpu_range
  else cfg.isolcpus

/-- `SysConfigHelper.cpu_affinity_range` with the deprecated fallback. -/
def cpu_affinity_rangeP (cfg : CharmConfig) : String :=
  if cfg.cpu_affinity_range = "" ∧ cfg.reservation = "affinity" ∧ cfg.cpu_range ≠ "" then
    cfg.cpu_range
  else cfg.cpu_affinity_range

/-- `SysConfigHelper.config_flags` (deprecated passthrough); `cfp` is the
external `config_flags_parser`. -/
def config_flagsP (cfp : String → List (String × String)) (cfg : CharmConfig) :
    List (String × String) :=
  if cfg.config_flags = "" then [] else cfp cfg.config_flags

/-- Python `d.get(k, dflt)` on an association-list dict. -/
def dictGet (d : List (String × String)) (k dflt : String) : String :=
  match d.find? (fun p => p.1 == k) with
  | some p => p.2
  | none => dflt

/-- `SysConfigHelper._is_kernel_already_running` (with `running_kernel()`
passed in as `running`). -/
def is_kernel_already_running (cfg : CharmConfig) (running : String) : Bool :=
  cfg.kernel_version == running

/-- `SysConfigHelper._render_boot_resource`: render the template to the
target file and record the resource as changed. -/
def render_boot_resource (render : String → Ctx → String) (w : World) (now : Int)
    (source target : String) (context : Ctx) : World × List OsAction :=
  let content := render source context
  ({ w with
      files := fun p => if p = target then some content else w.files p,
      db := set_resource w.db target now },
   [OsAction.writeFile target content, OsAction.setResource target])

def GRUB_DEFAULT_FMT (v : String) : String :=
  "Advanced options for Ubuntu>Ubuntu, with Linux " ++ v

/-- `SysConfigHelper._assemble_grub_context`. (The operator-visible error
for a bad `enable-pti` value is status/logging only; the context is left
unchanged, as in the source.) -/
def assemble_grub_context (cfp : String → List (String × String))
    (running : String) (cfg : CharmConfig) : Ctx :=
  let ctx : Ctx := []
  let ctx := if isolcpusP cfg ≠ "" then
      ctx ++ [("isolcpus", CtxVal.s (isolcpusP cfg))] else ctx
  let ctx := if cfg.hugepages ≠ "" then
      ctx ++ [("hugepages", CtxVal.s cfg.hugepages)] else ctx
  let ctx := if cfg.hugepagesz ≠ "" then
      ctx ++ [("hugepagesz", CtxVal.s cfg.hugepagesz)] else ctx
  let ctx := if cfg.default_hugepagesz ≠ "" then
      ctx ++ [("default_hugepagesz", CtxVal.s cfg.default_hugepagesz)] else ctx
  let ctx := if cfg.raid_autodetection ≠ "" then
      ctx ++ [("raid", CtxVal.s cfg.raid_autodetection)] else ctx
  let ctx := if cfg.enable_pti ≠ "" then
      (if cfg.enable_pti = "on" ∨ cfg.enable_pti = "off" then
        ctx ++ [("enable_pti", CtxVal.s cfg.enable_pti)]
      else ctx)
    else ctx
  let ctx := if cfg.enable_iommu then ctx ++ [("iommu", CtxVal.b true)] else ctx
  let ctx := if cfg.enable_tsx then ctx ++ [("tsx", CtxVal.b true)] else ctx
  let gcf := parse_config_flags cfg.grub_config_flags
  let ctx := if gcf ≠ [] then ctx ++ [("grub_config_flags", CtxVal.flags gcf)]
    else ctx ++ [("grub_config_flags",
      CtxVal.flags (parse_config_flags (dictGet (config_flagsP cfp cfg) "grub" "")))]
  let ctx := if cfg.kernel_version ≠ "" ∧ ¬ is_kernel_already_running cfg running then
      ctx ++ [("grub_default", CtxVal.s (GRUB_DEFAULT_FMT cfg.kernel_version))]
    else ctx
  ctx

/-- `SysConfigHelper.update_grub_file`: unconditionally renders and writes
the grub fragment, records it changed, then runs `update-grub` when the
option is set outside a container. -/
def update_grub_file (render : String → Ctx → String)
    (cfp : String → List (String × String)) (running : String)
    (is_container : Bool) (cfg : CharmConfig) (w : World) (now : Int) :
    World × List OsAction :=
  let context := assemble_grub_context cfp running cfg
  let r := render_boot_resource render w now GRUB_CONF_TMPL GRUB_CONF context
  if cfg.update_grub ∧ ¬ is_container then (r.1, r.2 ++ [OsAction.runUpdateGrub])
  else (r.1, r.2)

/-- `SysConfigHelper._assemble_systemd_context`. -/
def assemble_systemd_context (cfp : String → List (String × String))
    (cfg : CharmConfig) : Ctx :=
  let ctx : Ctx := if cpu_affinity_rangeP cfg ≠ "" then
      [("cpu_affinity_range", CtxVal.s (cpu_affinity_rangeP cfg))] else []
  let scf := parse_config_flags cfg.systemd_config_flags
  if scf ≠ [] then ctx ++ [("systemd_config_flags", CtxVal.flags scf)]
  else ctx ++ [("systemd_config_flags",
    CtxVal.flags (parse_config_flags (dictGet (config_flagsP cfp cfg) "systemd" "")))]

/-- The structural content a `ConfigParser` extracts from a config file:
sections with their option/value pairs. -/
abbrev ConfParsed := List (String × List (String × String))

/-- `SysConfigHelper._systemd_update_available`: parse the existing
`system.conf` (`ConfigParser.read` of a missing file yields the empty
config, i.e. the parse of `""`) and the freshly rendered output, and
compare structurally. -/
def systemd_update_available (render : String → Ctx → String)
    (cparse : String → ConfParsed) (context : Ctx) (w : World) : Bool :=
  let render_output := render SYSTEMD_SYSTEM_TMPL context
  decide (cparse ((w.files SYSTEMD_SYSTEM).getD "") ≠ cparse render_output)

/-- `SysConfigHelper.update_systemd_system_file`: write (and record) only
when the structural comparison shows an actual change. -/
def update_systemd_system_file (render : String → Ctx → String)
    (cparse : String → ConfParsed) (cfp : String → List (String × String))
    (cfg : CharmConfig) (w : World) (now : Int) : World × List OsAction :=
  let context := assemble_systemd_context cfp cfg
  if systemd_update_available render cparse context w then
    render_boot_resource render w now SYSTEMD_SYSTEM_TMPL SYSTEMD_SYSTEM context
  else (w, [])

/-- `charms.reactive.helpers.any_file_changed` specialised to one path:
compare the cached hash of the file with its current hash and update the
cache. -/
def any_file_changed (hashF : String → String) (w : World) (path : String) :
    Bool × World :=
  let current := (w.files path).map hashF
  (decide (w.hashCache path ≠ current),
   { w with hashCache := fun p => if p = path then current else w.hashCache p })

/-- `SysConfigHelper._update_systemd_resolved`: render to the resolved
config file (an unconditional write), then restart the service only if
`any_file_changed` reports a change. -/
def update_systemd_resolved_inner (render : String → Ctx → String)
    (hashF : String → String) (context : Ctx) (w : World) : World × List OsAction :=
  let content := render SYSTEMD_RESOLVED_TMPL context
  let w1 := { w with
    files := fun p => if p = SYSTEMD_RESOLVED then some content else w.files p }
  let r := any_file_changed hashF w1 SYSTEMD_RESOLVED
  if r.1 then
    (r.2, [OsAction.writeFile SYSTEMD_RESOLVED content,
      OsAction.serviceRestart "systemd-resolved"])
  else (r.2, [OsAction.writeFile SYSTEMD_RESOLVED content])

/-- `SysConfigHelper.update_systemd_resolved`. -/
def update_systemd_resolved (render : String → Ctx → String)
    (hashF : String → String) (cfg : CharmConfig) (w : World) :
    World × List OsAction :=
  let context : Ctx := if cfg.resolved_cache_mode ≠ "" then
      [("cache", CtxVal.s cfg.resolved_cache_mode)] else []
  update_systemd_resolved_inner render hashF context w

/-- `SysConfigHelper.update_sysctl`: YAML-parse the option (`yparse`:
outer `none` is a raised `YAMLError`, inner `none` a YAML null, defaulted
to `{}` by `or {}`) and call `sysctl.create` unconditionally. -/
def update_sysctl (yparse : String → Option (Option (List (String × String))))
    (cfg : CharmConfig) (w : World) : Option (World × List OsAction) :=
  match yparse cfg.sysctl with
  | none => none
  | some parsed => some (w, [OsAction.sysctlCreate (parsed.getD []) SYSCTL_CONF])

/-- `SysConfigHelper.update_cpufreq`: for a valid governor, render and
write, mask/unmask the ondemand service outside containers, and restart
cpufrequtils — all unconditionally. -/
def update_cpufreq (render : String → Ctx → String) (is_container : Bool)
    (cfg : CharmConfig) (w : World) (now : Int) : World × List OsAction :=
  if cfg.governor ≠ "" ∧ cfg.governor ≠ "performance" ∧ cfg.governor ≠ "powersave" then
    (w, [])
  else
    let context : Ctx := [("governor", CtxVal.s cfg.governor)]
    let r := render_boot_resource render w now CPUFREQUTILS_TMPL CPUFREQUTILS context
    let acts := if ¬ is_container then
        r.2 ++ (if cfg.governor ≠ "" then [OsAction.maskService "ondemand"]
                else [OsAction.unmaskService "ondemand"])
      else r.2
    (r.1, acts ++ [OsAction.serviceRestart "cpufrequtils"])

/-- `SysConfigHelper.update_irqbalance`: renders, writes and restarts on
every call (no diff check). -/
def update_irqbalance (render : String → Ctx → String) (cfg : CharmConfig)
    (w : World) (now : Int) : World × List OsAction :=
  let context : Ctx := if cfg.irqbalance_banned_cpus ≠ "" then
      [("irqbalance_banned_cpus", CtxVal.s cfg.irqbalance_banned_cpus)] else []
  let r := render_boot_resource render w now IRQBALANCE_CONF_TMPL IRQBALANCE_CONF context
  (r.1, r.2 ++ [OsAction.serviceRestart "irqbalance"])

/-- `SysConfigHelper.install_configured_kernel`. -/
def install_configured_kernel (cfg : CharmConfig) (running : String) (w : World)
    (now : Int) : World × List OsAction :=
  if cfg.kernel_version = "" then (w, [])
  else
    let acts := [OsAction.aptUpdate,
      OsAction.aptInstall ("linux-modules-extra-" ++ cfg.kernel_version)]
    if is_kernel_already_running cfg running then (w, acts)
    else
      ({ w with db := set_resource w.db KERNEL now },
       acts ++ [OsAction.aptInstall ("linux-image-" ++ cfg.kernel_version),
         OsAction.setResource KERNEL])

theorem image_ne_modules (v : String) :
    "linux-image-" ++ v ≠ "linux-modules-extra-" ++ v := by
  intro h
  have hl := congrArg String.length h
  have h12 : ("linux-image-" : String).length = 12 := rfl
  have h20 : ("linux-modules-extra-" : String).length = 20 := rfl
  simp only [String.length_append, h12, h20] at hl
  omega

/-- C6: when the configured kernel-version is non-empty and equals the
running release, `install_configured_kernel` installs the matching
modules-extra package, performs no image install, records no resource
change and leaves the store untouched; and on every input the kernel
resource is marked changed exactly when a linux-image install happened. -/
theorem C6_install_configured_kernel (cfg : CharmConfig) (running : String)
    (w : World) (now : Int)
    (hne : cfg.kernel_version ≠ "") (heq : cfg.kernel_version = running) :
    ((install_configured_kernel cfg running w now).2 =
      [OsAction.aptUpdate,
       OsAction.aptInstall ("linux-modules-extra-" ++ cfg.kernel_version)]) ∧
    (OsAction.aptInstall ("linux-image-" ++ cfg.kernel_version) ∉
      (install_configured_kernel cfg running w now).2) ∧
    (∀ n, OsAction.setResource n ∉ (install_configured_kernel cfg running w now).2) ∧
    ((install_configured_kernel cfg running w now).1 = w) ∧
    (∀ (cfg' : CharmConfig) (running' : String) (w' : World) (now' : Int),
      (OsAction.setResource KERNEL ∈
        (install_configured_kernel cfg' running' w' now').2 ↔
       OsAction.aptInstall ("linux-image-" ++ cfg'.kernel_version) ∈
        (install_configured_kernel cfg' running' w' now').2)) := by
  have hrun : is_kernel_already_running cfg running = true := by
    simp [is_kernel_already_running, heq]
  refine ⟨?_, ?_, ?_, ?_, ?_⟩
  · simp [install_configured_kernel, hne, hrun]
  · have him := image_ne_modules cfg.kernel_version
    simp [install_configured_kernel, hne, hrun, him]
  · intro n
    simp [install_configured_kernel, hne, hrun]
  · simp [install_configured_kernel, hne, hrun]
  · intro cfg' running' w' now'
    by_cases h1 : cfg'.kernel_version = ""
    · simp [install_configured_kernel, h1]
    · cases h2 : is_kernel_already_running cfg' running' with
      | true =>
        have him := image_ne_modules cfg'.kernel_version
        simp [install_configured_kernel, h1, h2, him]
      | false =>
        simp [install_configured_kernel, h1, h2]

def render0 : String → Ctx → String := fun t _ => t

def w0 : World := ⟨fun _ => none, fun _ => none, fun _ => none⟩

def cfgDefault : CharmConfig :=
  ⟨"", "", "", "", "", "", "", "", "", false, false, "", "", "", false, "", "", "",
   "", ""⟩

def cfgKernel : CharmConfig :=
  ⟨"", "", "", "", "", "", "", "", "", false, false, "", "", "5.4.0", false, "", "",
   "", "", ""⟩

def cfgPerf : CharmConfig :=
  ⟨"", "", "", "", "", "", "", "", "", false, false, "", "", "", false,
   "performance", "", "", "", ""⟩

theorem C6_witness :
    ((install_configured_kernel cfgKernel "5.4.0" w0 1).2 =
      [OsAction.aptUpdate,
       OsAction.aptInstall ("linux-modules-extra-" ++ cfgKernel.kernel_version)]) ∧
    (OsAction.aptInstall ("linux-image-" ++ cfgKernel.kernel_version) ∉
      (install_configured_kernel cfgKernel "5.4.0" w0 1).2) ∧
    (∀ n, OsAction.setResource n ∉ (install_configured_kernel cfgKernel "5.4.0" w0 1).2) ∧
    ((install_configured_kernel cfgKernel "5.4.0" w0 1).1 = w0) ∧
    (∀ (cfg' : CharmConfig) (running' : String) (w' : World) (now' : Int),
      (OsAction.setResource KERNEL ∈
        (install_configured_kernel cfg' running' w' now').2 ↔
       OsAction.aptInstall ("linux-image-" ++ cfg'.kernel_version) ∈
        (install_configured_kernel cfg' running' w' now').2)) :=
  C6_install_configured_kernel cfgKernel "5.4.0" w0 1 (by decide) rfl

/-- C2 counterexample: with unchanged configuration and the on-disk state
exactly as the first call left it, the second `update_irqbalance` call
still writes the config file and restarts the service. -/
theorem C2_counterexample :
    OsAction.serviceRestart "irqbalance" ∈
      (update_irqbalance render0 cfgDefault
        ((update_irqbalance render0 cfgDefault w0 1).1) 2).2 ∧
    OsAction.writeFile IRQBALANCE_CONF (render0 IRQBALANCE_CONF_TMPL []) ∈
      (update_irqbalance render0 cfgDefault
        ((update_irqbalance render0 cfgDefault w0 1).1) 2).2 := by
  constructor <;> decide

theorem resolved_second_call (render : String → Ctx → String)
    (hashF : String → String) (ctx : Ctx) (w : World) :
    (update_systemd_resolved_inner render hashF ctx
      (update_systemd_resolved_inner render hashF ctx w).1).2 =
    [OsAction.writeFile SYSTEMD_RESOLVED (render SYSTEMD_RESOLVED_TMPL ctx)] := by
  simp [update_systemd_resolved_inner, any_file_changed, apply_ite, ite_self]

/-- C2 (amended): only `update_systemd_system_file` is idempotent in the
claimed sense — an immediate second call with unchanged configuration and
an unmodified on-disk state performs no action at all. A second
`update_systemd_resolved` call skips the restart but still rewrites the
file. `update_irqbalance`, `update_grub_file`, `update_cpufreq` (with a
valid governor) and `update_sysctl` perform their write/restart action on
every call, the second included. -/
theorem C2_idempotence_amended :
    (∀ (render : String → Ctx → String) (cparse : String → ConfParsed)
       (cfp : String → List (String × String)) (cfg : CharmConfig) (w : World)
       (n1 n2 : Int),
      (update_systemd_system_file render cparse cfp cfg
        (update_systemd_system_file render cparse cfp cfg w n1).1 n2).2 = []) ∧
    (∀ (render : String → Ctx → String) (hashF : String → String)
       (cfg : CharmConfig) (w : World),
      (update_systemd_resolved render hashF cfg
        (update_systemd_resolved render hashF cfg w).1).2 =
      [OsAction.writeFile SYSTEMD_RESOLVED (render SYSTEMD_RESOLVED_TMPL
        (if cfg.resolved_cache_mode ≠ "" then
          [("cache", CtxVal.s cfg.resolved_cache_mode)] else []))]) ∧
    (∀ (render : String → Ctx → String) (cfg : CharmConfig) (w : World) (now : Int),
      OsAction.serviceRestart "irqbalance" ∈ (update_irqbalance render cfg w now).2 ∧
      ∃ c, OsAction.writeFile IRQBALANCE_CONF c ∈ (update_irqbalance render cfg w now).2) ∧
    (∀ (render : String → Ctx → String) (cfp : String → List (String × String))
       (running : String) (ic : Bool) (cfg : CharmConfig) (w : World) (now : Int),
      ∃ c, OsAction.writeFile GRUB_CONF c ∈
        (update_grub_file render cfp running ic cfg w now).2) ∧
    (∀ (render : String → Ctx → String) (ic : Bool) (cfg : CharmConfig) (w : World)
       (now : Int),
      (cfg.governor = "" ∨ cfg.governor = "performance" ∨ cfg.governor = "powersave") →
      OsAction.serviceRestart "cpufrequtils" ∈ (update_cpufreq render ic cfg w now).2) ∧
    (∀ (yparse : String → Option (Option (List (String × String))))
       (cfg : CharmConfig) (w : World) (parsed : Option (List (String × String))),
      yparse cfg.sysctl = some parsed →
      update_sysctl yparse cfg w =
        some (w, [OsAction.sysctlCreate (parsed.getD []) SYSCTL_CONF])) := by
  refine ⟨?_, ?_, ?_, ?_, ?_, ?_⟩
  · intro render cparse cfp cfg w n1 n2
    cases h1 : systemd_update_available render cparse (assemble_systemd_context cfp cfg) w with
    | true =>
      have h2 : systemd_update_available render cparse (assemble_systemd_context cfp cfg)
          (render_boot_resource render w n1 SYSTEMD_SYSTEM_TMPL SYSTEMD_SYSTEM
            (assemble_systemd_context cfp cfg)).1 = false := by
        simp [systemd_update_available, render_boot_resource]
      simp [update_systemd_system_file, h1, h2]
    | false =>
      simp [update_systemd_system_file, h1]
  · intro render hashF cfg w
    exact resolved_second_call render hashF _ w
  · intro render cfg w now
    constructor
    · simp [update_irqbalance, render_boot_resource]
    · exact ⟨render IRQBALANCE_CONF_TMPL
        (if cfg.irqbalance_banned_cpus ≠ "" then
          [("irqbalance_banned_cpus", CtxVal.s cfg.irqbalance_banned_cpus)] else []),
        by simp [update_irqbalance, render_boot_resource]⟩
  · intro render cfp running ic cfg w now
    refine ⟨render GRUB_CONF_TMPL (assemble_grub_context cfp running cfg), ?_⟩
    simp only [update_grub_file, render_boot_resource]
    split <;> simp
  · intro render ic cfg w now hv
    have hcond : ¬ (cfg.governor ≠ "" ∧ cfg.governor ≠ "performance" ∧
        cfg.governor ≠ "powersave") := by
      rcases hv with h | h | h <;> simp [h]
    by_cases hic : ic <;> simp [update_cpufreq, render_boot_resource, hcond, hic]
  · intro yparse cfg w parsed hp
    simp [update_sysctl, hp]

theorem C2_witness :
    (OsAction.serviceRestart "cpufrequtils" ∈
      (update_cpufreq render0 false cfgPerf w0 1).2) ∧
    update_sysctl (fun _ => some (some [("vm.swappiness", "10")])) cfgDefault w0 =
      some (w0, [OsAction.sysctlCreate [("vm.swappiness", "10")] SYSCTL_CONF]) :=
  ⟨C2_idempotence_amended.2.2.2.2.1 render0 false cfgPerf w0 1 (Or.inr (Or.inl rfl)),
   C2_idempotence_amended.2.2.2.2.2 (fun _ => some (some [("vm.swappiness", "10")]))
     cfgDefault w0 (some [("vm.swappiness", "10")]) rfl⟩
